import Mathlib

/-!
Verification of the command-execution and file-search core of the
`codespace-agent` service (`app.py`).

The Python handlers are shallowly embedded:

* the regex collaborator (`re.compile` / `pattern.search`) is an abstract
  `RegexEngine` whose `compile` returns `none` exactly when `re.compile`
  raises `re.error`, and otherwise a boolean line predicate;
* the filesystem seen by one `/fs/search` request is a `Root`: `none` when
  `search_path.exists()` is false, a single `FileEnt` when
  `search_path.is_file()`, or the `is_file` entries of
  `search_path.rglob("*")` in traversal order;
* opening a file yields its line sequence (each line keeps its trailing
  newline, as Python file iteration yields it), or `none` when `open`
  raises and the handler skips the file;
* the subprocess facility used by `/exec` is an abstract `Spawner` mapping
  (command, cwd, timeout) to either a completed status with captured
  output or a timeout;
* `search_files` additionally returns the list of file paths for which it
  attempted `open(...)`, its file-I/O trace.

Integer request fields (`max_results`, `timeout_seconds`) are Python
`int`s and are modelled as `Int`.
-/

namespace CodespaceAgent

/-! ### Data model (the pydantic models of `app.py`) -/

/-- `ExecRequest` (app.py:32-35). -/
structure ExecRequest where
  command : String
  cwd : Option String := none
  timeout_seconds : Int := 120
deriving Repr, DecidableEq

/-- `ExecResponse` (app.py:38-41). -/
structure ExecResponse where
  exit_code : Int
  stdout : String
  stderr : String
deriving Repr, DecidableEq

/-- `SearchRequest` (app.py:146-150). -/
structure SearchRequest where
  pattern : String
  path : String := "."
  file_pattern : Option String := none
  max_results : Int := 100
deriving Repr, DecidableEq

/-- `SearchMatch` (app.py:153-156). -/
structure SearchMatch where
  file_path : String
  line_number : Nat
  line_content : String
deriving Repr, DecidableEq

/-- `SearchResponse` (app.py:159-162). The Python field `matches` is a Lean
keyword, hence the field name `matches_`. -/
structure SearchResponse where
  pattern : String
  matches_ : List SearchMatch
  total_matches : Nat
deriving Repr, DecidableEq

/-! ### Collaborators: regex engine, filesystem, process spawner -/

/-- The regex collaborator: `compile p` is `none` when `re.compile(p)` raises
`re.error` (syntactically invalid pattern), and otherwise the predicate
`fun line => re.compile(p).search(line) is not None`. -/
structure RegexEngine where
  compile : String → Option (String → Bool)

/-- One regular file of the corpus. `path` is `str(f)`; `lines` is the list of
lines that iterating the opened file yields (each keeps its trailing newline,
except possibly the last), or `none` when `open`/iteration raises so that the
handler's `except Exception: continue` skips the file. -/
structure FileEnt where
  path : String
  lines : Option (List String)
deriving Repr, DecidableEq

/-- What `search_path` resolves to when it exists: a regular file, or a
directory whose `rglob("*")` yields the given `is_file` entries in
filesystem-traversal order. -/
inductive FsEntry
  | file (f : FileEnt)
  | dir (files : List FileEnt)
deriving Repr, DecidableEq

/-- The search root; `none` models `not search_path.exists()`. -/
abbrev Root := Option FsEntry

/-- The failures `search_files` can surface: HTTP 404 ("Search path not
found"), or a `re.error` propagating out of `re.compile`. -/
inductive SearchFailure
  | notFound
  | invalidPattern
deriving Repr, DecidableEq

/-- Outcome of `subprocess.run(command, cwd=..., shell=True, capture_output=True,
text=True, timeout=...)`: the process completed before the deadline with an
OS-reported return code and captured streams, or the deadline fired
(`subprocess.TimeoutExpired`). -/
inductive RunResult
  | completed (returncode : Int) (stdout stderr : String)
  | timedOut
deriving Repr, DecidableEq

/-- The process-spawning collaborator: command, working directory, timeout. -/
abbrev Spawner := String → String → Int → RunResult

/-- The failure `exec_command` can surface: HTTP 408 ("Command timed out"). -/
inductive ExecFailure
  | commandTimeout
deriving Repr, DecidableEq

/-! ### Python string helpers used by the handlers -/

/-- The whitespace characters `str.rstrip()` strips (the ASCII ones; the
counterexamples below only use plain spaces and newlines). -/
def pyIsSpace (c : Char) : Bool :=
  c = ' ' || c = '\t' || c = '\n' || c = '\r' || c = '\x0b' || c = '\x0c'

/-- Python `line.rstrip()` with no argument: remove ALL trailing whitespace. -/
def pyRstrip (s : String) : String :=
  ⟨(s.data.reverse.dropWhile pyIsSpace).reverse⟩

/-! ### The executor (`exec_command`, app.py:64-91) -/

/-- Line 66: `cwd = req.cwd or str(Path(".").resolve())`. `currentDir` is the
absolute path `str(Path(".").resolve())` of the process's current directory at
call time; a supplied `cwd` is used verbatim unless it is falsy (absent or the
empty string). -/
def resolved_cwd (currentDir : String) (req : ExecRequest) : String :=
  match req.cwd with
  | some c => if c = "" then currentDir else c
  | none => currentDir

/-- `exec_command` (app.py:64-91): run the command through the spawner with the
resolved working directory and the request's timeout; a `TimeoutExpired` becomes
an HTTP 408 failure, any completion (whatever the return code) becomes an
`ExecResponse` carrying the OS-reported return code and captured streams. -/
def exec_command (os : Spawner) (currentDir : String) (req : ExecRequest) :
    Except ExecFailure ExecResponse :=
  match os req.command (resolved_cwd currentDir req) req.timeout_seconds with
  | .timedOut => .error .commandTimeout
  | .completed rc out err => .ok ⟨rc, out, err⟩

/-! ### The searcher (`search_files`, app.py:238-300) -/

/-- Inner loop (app.py:276-284): scan the lines of one opened file with 1-based
`line_num`, appending a `SearchMatch` (content passed through `line.rstrip()`)
for every line the content pattern matches, and breaking as soon as
`len(matches) >= req.max_results`. -/
def line_loop (pat : String → Bool) (fp : String) (max_results : Int) :
    List String → Nat → List SearchMatch → List SearchMatch
  | [], _, ms => ms
  | line :: rest, line_num, ms =>
    if pat line then
      let ms' := ms ++ [⟨fp, line_num, pyRstrip line⟩]
      if max_results ≤ (ms'.length : Int) then ms'
      else line_loop pat fp max_results rest (line_num + 1) ms'
    else line_loop pat fp max_results rest (line_num + 1) ms

/-- Outer loop (app.py:270-287): for each candidate file, break before opening
when the cap is already met (`len(matches) >= req.max_results`); otherwise
attempt `open(file_path)` (recorded in the I/O trace `opened`), scan it with
`line_loop`, and skip it silently when the read fails. -/
def file_loop (pat : String → Bool) (max_results : Int) :
    List FileEnt → List SearchMatch → List String → List SearchMatch × List String
  | [], ms, opened => (ms, opened)
  | f :: rest, ms, opened =>
    if max_results ≤ (ms.length : Int) then (ms, opened)
    else
      match f.lines with
      | none => file_loop pat max_results rest ms (opened ++ [f.path])
      | some ls =>
        file_loop pat max_results rest
          (line_loop pat f.path max_results ls 1 ms) (opened ++ [f.path])

/-- "Determine which files to search" (app.py:257-268), run after the content
pattern compiled: a file root searches exactly that file and never consults
`file_pattern`; a directory root compiles `file_pattern` when present (a
`re.error` propagates) and keeps the files whose full path string the compiled
filter matches. -/
def files_to_search (eng : RegexEngine) (ent : FsEntry) (req : SearchRequest) :
    Except SearchFailure (List FileEnt) :=
  match ent with
  | .file f => .ok [f]
  | .dir fs =>
    match req.file_pattern with
    | some fp =>
      match eng.compile fp with
      | none => .error .invalidPattern
      | some file_glob => .ok (fs.filter (fun f => file_glob f.path))
    | none => .ok fs

/-- `search_files` (app.py:238-300): 404 when the root does not exist; then
`re.compile(req.pattern)` (line 255, a `re.error` propagates); then the
candidate set; then the capped scan. Returns the outcome together with the
list of file paths the handler attempted to open (its file-I/O trace);
`total_matches` is `len(matches)` (line 299). -/
def search_files (eng : RegexEngine) (root : Root) (req : SearchRequest) :
    Except SearchFailure SearchResponse × List String :=
  match root with
  | none => (.error .notFound, [])
  | some ent =>
    match eng.compile req.pattern with
    | none => (.error .invalidPattern, [])
    | some pat =>
      match files_to_search eng ent req with
      | .error e => (.error e, [])
      | .ok fs =>
        let r := file_loop pat req.max_results fs [] []
        (.ok ⟨req.pattern, r.1, r.1.length⟩, r.2)

/-! ### Uncapped match lists (specification-side, in traversal order) -/

/-- All matches a fully scanned file contributes, in ascending line order,
starting at line number `n`. -/
def line_matches (pat : String → Bool) (fp : String) :
    List String → Nat → List SearchMatch
  | [], _ => []
  | line :: rest, n =>
    if pat line then ⟨fp, n, pyRstrip line⟩ :: line_matches pat fp rest (n + 1)
    else line_matches pat fp rest (n + 1)

/-- All matches one candidate file contributes (none when unreadable). -/
def file_matches (pat : String → Bool) (f : FileEnt) : List SearchMatch :=
  match f.lines with
  | none => []
  | some ls => line_matches pat f.path ls 1

/-- All matches of the corpus, in traversal order. -/
def all_matches (pat : String → Bool) (fs : List FileEnt) : List SearchMatch :=
  (fs.map (file_matches pat)).flatten

/-! ### A concrete regex engine for witnesses and counterexamples

On the patterns used below — metacharacter-free literals, and the invalid
pattern `"("` — Python's `re` behaves exactly like literal substring search,
which is what this engine implements. -/

/-- `subOccurs needle hay`: the needle occurs as a contiguous sublist. -/
def subOccurs (needle : List Char) : List Char → Bool
  | [] => needle.isEmpty
  | c :: rest => needle.isPrefixOf (c :: rest) || subOccurs needle rest

/-- A concrete engine: `"("` is the invalid pattern (as in `re`), every other
pattern matches as a literal substring. -/
def toyEngine : RegexEngine where
  compile p := if p = "(" then none else some (fun line => subOccurs p.data line.data)

/-- The claim C7 wording, as a function: strip exactly one trailing newline
and nothing else. (Spec-side definition, for comparison with the code's
`line.rstrip()`.) -/
def stripTrailingNewline (s : String) : String :=
  if s.data.getLast? = some '\n' then ⟨s.data.dropLast⟩ else s

/-- POSIX absolute-path test (spec-side, for claim C8's "absolute path"): the
path begins with a slash. -/
def is_absolute_path (s : String) : Bool :=
  match s.data with
  | [] => false
  | c :: _ => c = '/'

end CodespaceAgent

namespace CodespaceAgent

/-! ### Loop characterization lemmas -/

/-- While below the cap, the inner loop appends exactly the next
`cap - len` uncapped matches of the file. -/
theorem line_loop_eq_take (pat : String → Bool) (fp : String) (cap : Int)
    (ls : List String) :
    ∀ (n : Nat) (ms : List SearchMatch), (ms.length : Int) < cap →
      line_loop pat fp cap ls n ms =
        ms ++ (line_matches pat fp ls n).take (cap.toNat - ms.length) := by
  induction ls with
  | nil => intro n ms h; simp [line_loop, line_matches]
  | cons line rest ih =>
    intro n ms h
    by_cases hp : pat line
    · simp only [line_loop, line_matches, hp, if_true]
      by_cases hb : cap ≤ ((ms ++ [(⟨fp, n, pyRstrip line⟩ : SearchMatch)]).length : Int)
      · rw [if_pos hb]
        simp only [List.length_append, List.length_cons, List.length_nil] at hb
        have h1 : cap.toNat - ms.length = 1 := by omega
        rw [h1, List.take_succ_cons, List.take_zero]
      · rw [if_neg hb]
        simp only [List.length_append, List.length_cons, List.length_nil] at hb
        push_neg at hb
        rw [ih (n + 1) _ (by simp; omega)]
        have h2 : cap.toNat - (ms ++ [(⟨fp, n, pyRstrip line⟩ : SearchMatch)]).length =
            cap.toNat - ms.length - 1 := by simp; omega
        have h3 : cap.toNat - ms.length = (cap.toNat - ms.length - 1) + 1 := by omega
        rw [h2, h3, List.take_succ_cons, List.append_assoc]
        rfl
    · simp only [line_loop, line_matches, hp, Bool.false_eq_true, if_false]
      exact ih (n + 1) ms h

/-- The matches the outer loop returns are the accumulator followed by the
next `cap - len` uncapped matches of the remaining candidates, in traversal
order. -/
theorem file_loop_fst (pat : String → Bool) (cap : Int) (fs : List FileEnt) :
    ∀ (ms : List SearchMatch) (opened : List String),
      (file_loop pat cap fs ms opened).1 =
        ms ++ (all_matches pat fs).take (cap.toNat - ms.length) := by
  induction fs with
  | nil => intro ms opened; simp [file_loop, all_matches]
  | cons f rest ih =>
    intro ms opened
    by_cases hb : cap ≤ (ms.length : Int)
    · simp only [file_loop, if_pos hb]
      have h0 : cap.toNat - ms.length = 0 := by omega
      rw [h0, List.take_zero, List.append_nil]
    · push_neg at hb
      simp only [file_loop, if_neg (not_le.mpr hb)]
      have hall : all_matches pat (f :: rest) =
          file_matches pat f ++ all_matches pat rest := by
        simp [all_matches]
      cases hl : f.lines with
      | none =>
        rw [ih ms (opened ++ [f.path])]
        have hf0 : file_matches pat f = [] := by simp [file_matches, hl]
        rw [hall, hf0, List.nil_append]
      | some ls =>
        have hfm : file_matches pat f = line_matches pat f.path ls 1 := by
          simp [file_matches, hl]
        rw [ih _ (opened ++ [f.path]), line_loop_eq_take pat f.path cap ls 1 ms hb,
          hall, hfm, List.take_append_eq_append_take, ← List.append_assoc]
        congr 1
        simp only [List.length_append, List.length_take]
        have harith : cap.toNat - (ms.length + min (cap.toNat - ms.length)
            (line_matches pat f.path ls 1).length) =
            cap.toNat - ms.length - (line_matches pat f.path ls 1).length := by
          omega
        rw [harith]

/-- The I/O trace of the outer loop extends the accumulator with a prefix of
the candidate paths, in traversal order. -/
theorem file_loop_snd_prefix (pat : String → Bool) (cap : Int) (fs : List FileEnt) :
    ∀ (ms : List SearchMatch) (opened : List String),
      ∃ k, (file_loop pat cap fs ms opened).2 =
        opened ++ (fs.map FileEnt.path).take k := by
  induction fs with
  | nil => intro ms opened; exact ⟨0, by simp [file_loop]⟩
  | cons f rest ih =>
    intro ms opened
    by_cases hb : cap ≤ (ms.length : Int)
    · exact ⟨0, by simp [file_loop, if_pos hb]⟩
    · cases hl : f.lines with
      | none =>
        obtain ⟨k, hk⟩ := ih ms (opened ++ [f.path])
        refine ⟨k + 1, ?_⟩
        simp only [file_loop, if_neg hb, hl]
        rw [hk, List.map_cons, List.take_succ_cons, List.append_assoc]
        rfl
      | some ls =>
        obtain ⟨k, hk⟩ := ih (line_loop pat f.path cap ls 1 ms) (opened ++ [f.path])
        refine ⟨k + 1, ?_⟩
        simp only [file_loop, if_neg hb, hl]
        rw [hk, List.map_cons, List.take_succ_cons, List.append_assoc]
        rfl

/-- Short-circuiting: as soon as `j` candidates already carry at least `cap`
matches (counting the accumulator), the loop opens at most `j` further files. -/
theorem file_loop_snd_bound (pat : String → Bool) (cap : Int) (fs : List FileEnt) :
    ∀ (ms : List SearchMatch) (opened : List String) (j : Nat),
      cap ≤ ((ms.length : Int) + ((all_matches pat (fs.take j)).length : Int)) →
      (file_loop pat cap fs ms opened).2.length ≤ opened.length + j := by
  induction fs with
  | nil => intro ms opened j _; simp [file_loop]
  | cons f rest ih =>
    intro ms opened j hj
    by_cases hb : cap ≤ (ms.length : Int)
    · simp [file_loop, if_pos hb]
    · push_neg at hb
      cases j with
      | zero =>
        exfalso
        simp [all_matches] at hj
        omega
      | succ j' =>
        have hall : all_matches pat ((f :: rest).take (j' + 1)) =
            file_matches pat f ++ all_matches pat (rest.take j') := by
          simp [all_matches, List.take_succ_cons]
        rw [hall] at hj
        simp only [List.length_append] at hj
        push_cast at hj
        simp only [file_loop, if_neg (not_le.mpr hb)]
        cases hl : f.lines with
        | none =>
          have hf0 : file_matches pat f = [] := by simp [file_matches, hl]
          rw [hf0] at hj
          simp only [List.length_nil] at hj
          have := ih ms (opened ++ [f.path]) j' (by omega)
          simp only [List.length_append, List.length_cons, List.length_nil] at this ⊢
          omega
        | some ls =>
          have hfm : file_matches pat f = line_matches pat f.path ls 1 := by
            simp [file_matches, hl]
          rw [hfm] at hj
          have hleq := line_loop_eq_take pat f.path cap ls 1 ms hb
          have hlen : (line_loop pat f.path cap ls 1 ms).length =
              ms.length + min (cap.toNat - ms.length) (line_matches pat f.path ls 1).length := by
            rw [hleq]; simp [List.length_take]
          have := ih (line_loop pat f.path cap ls 1 ms) (opened ++ [f.path]) j' (by
            rw [hlen]; push_cast; omega)
          simp only [List.length_append, List.length_cons, List.length_nil] at this ⊢
          omega

end CodespaceAgent

namespace CodespaceAgent

/-! ### Membership and inversion lemmas -/

/-- Every match the scan of one file can produce records that file's path, a
line number at least `n` (1-based when the scan starts at `n = 1`) addressing
an actual line of the file, the `rstrip`-ped content of that very line, and
the fact that the content pattern matched the line. -/
theorem line_matches_mem (pat : String → Bool) (fp : String) (ls : List String) :
    ∀ (n : Nat) (m : SearchMatch), m ∈ line_matches pat fp ls n →
      m.file_path = fp ∧ n ≤ m.line_number ∧ m.line_number - n < ls.length ∧
      m.line_content = pyRstrip (ls.getD (m.line_number - n) "") ∧
      pat (ls.getD (m.line_number - n) "") = true := by
  induction ls with
  | nil => intro n m hm; simp [line_matches] at hm
  | cons line rest ih =>
    intro n m hm
    have step : m ∈ line_matches pat fp rest (n + 1) →
        m.file_path = fp ∧ n ≤ m.line_number ∧
        m.line_number - n < (line :: rest).length ∧
        m.line_content = pyRstrip ((line :: rest).getD (m.line_number - n) "") ∧
        pat ((line :: rest).getD (m.line_number - n) "") = true := by
      intro hm'
      obtain ⟨h1, h2, h3, h4, h5⟩ := ih (n + 1) m hm'
      have hk : m.line_number - n = (m.line_number - (n + 1)) + 1 := by omega
      rw [hk, List.getD_cons_succ]
      exact ⟨h1, by omega, by simp [List.length_cons]; omega, h4, h5⟩
    by_cases hp : pat line
    · simp only [line_matches, hp, if_true, List.mem_cons] at hm
      rcases hm with hm | hm
      · subst hm
        refine ⟨rfl, Nat.le_refl n, ?_, ?_, ?_⟩ <;>
          simp [Nat.sub_self, List.getD_cons_zero, hp]
      · exact step hm
    · simp only [line_matches, hp, Bool.false_eq_true, if_false] at hm
      exact step hm

/-- A match of the corpus belongs to some candidate file's match list. -/
theorem all_matches_mem (pat : String → Bool) (fs : List FileEnt) (m : SearchMatch)
    (hm : m ∈ all_matches pat fs) : ∃ f ∈ fs, m ∈ file_matches pat f := by
  simp only [all_matches, List.mem_flatten, List.mem_map] at hm
  obtain ⟨l, ⟨f, hf, rfl⟩, hml⟩ := hm
  exact ⟨f, hf, hml⟩

/-- A file contributing a match is readable, and the match comes from scanning
its lines from line number 1. -/
theorem file_matches_mem (pat : String → Bool) (f : FileEnt) (m : SearchMatch)
    (hm : m ∈ file_matches pat f) :
    ∃ ls, f.lines = some ls ∧ m ∈ line_matches pat f.path ls 1 := by
  cases hl : f.lines with
  | none => rw [file_matches, hl] at hm; simp at hm
  | some ls => rw [file_matches, hl] at hm; exact ⟨ls, rfl, hm⟩

/-- Unreadable files contribute nothing: the uncapped corpus matches are those
of the readable candidates alone. -/
theorem all_matches_filter_readable (pat : String → Bool) (fs : List FileEnt) :
    all_matches pat fs = all_matches pat (fs.filter (fun f => f.lines.isSome)) := by
  induction fs with
  | nil => rfl
  | cons f rest ih =>
    have hcons : all_matches pat (f :: rest) =
        file_matches pat f ++ all_matches pat rest := by simp [all_matches]
    cases hl : f.lines with
    | none =>
      have h1 : file_matches pat f = [] := by simp [file_matches, hl]
      rw [hcons, h1, List.nil_append, ih, List.filter_cons]
      simp [hl]
    | some ls =>
      rw [hcons, ih, List.filter_cons]
      simp only [hl, Option.isSome_some, if_true]
      simp [all_matches]

/-- Inversion of a successful search: the root exists, the content pattern
compiled, the candidate set resolved, and the response and I/O trace are those
of the capped scan of the candidates. -/
theorem search_files_ok_inv (eng : RegexEngine) (root : Root) (req : SearchRequest)
    (resp : SearchResponse) (opened : List String)
    (h : search_files eng root req = (.ok resp, opened)) :
    ∃ ent pat cands, root = some ent ∧ eng.compile req.pattern = some pat ∧
      files_to_search eng ent req = .ok cands ∧
      resp.pattern = req.pattern ∧
      resp.matches_ = (file_loop pat req.max_results cands [] []).1 ∧
      resp.total_matches = resp.matches_.length ∧
      opened = (file_loop pat req.max_results cands [] []).2 := by
  cases root with
  | none => simp [search_files] at h
  | some ent =>
    cases hc : eng.compile req.pattern with
    | none => simp [search_files, hc] at h
    | some pat =>
      cases hf : files_to_search eng ent req with
      | error e => simp [search_files, hc, hf] at h
      | ok cands =>
        simp only [search_files, hc, hf] at h
        rw [Prod.mk.injEq] at h
        obtain ⟨h1, h2⟩ := h
        rw [Except.ok.injEq] at h1
        refine ⟨ent, pat, cands, rfl, rfl, hf, ?_, ?_, ?_, h2.symm⟩ <;> rw [← h1]

end CodespaceAgent

namespace CodespaceAgent

deriving instance DecidableEq for Except

/-! ### Claim theorems: the executor -/

/-- Claim C2: for every command whose spawn reports that the deadline
`req.timeout_seconds` fired before the process exited, `exec_command` returns
the `CommandTimeout` failure (HTTP 408) and never an `ExecResponse`. -/
theorem exec_timeout (os : Spawner) (currentDir : String) (req : ExecRequest)
    (h : os req.command (resolved_cwd currentDir req) req.timeout_seconds = .timedOut) :
    exec_command os currentDir req = .error .commandTimeout ∧
    ∀ r : ExecResponse, exec_command os currentDir req ≠ .ok r := by
  constructor
  · rw [exec_command, h]
  · intro r hr
    rw [exec_command, h] at hr
    exact Except.noConfusion hr

/-- Witness for C2: a spawner that always times out yields the 408 failure. -/
theorem exec_timeout_witness :
    exec_command (fun _ _ _ => RunResult.timedOut) "/w" ⟨"sleep 10", none, 1⟩ =
      .error .commandTimeout ∧
    ∀ r : ExecResponse, exec_command (fun _ _ _ => RunResult.timedOut) "/w"
      ⟨"sleep 10", none, 1⟩ ≠ .ok r :=
  exec_timeout (fun _ _ _ => RunResult.timedOut) "/w" ⟨"sleep 10", none, 1⟩ rfl

/-- Claim C6: for every command whose process exits before the deadline,
`exec_command` returns an `ExecResponse` whose `exit_code` is exactly the
OS-reported status `rc`, whatever its sign or magnitude, with the captured
streams; a non-zero exit code is not a failure of the call. -/
theorem exec_exit_code (os : Spawner) (currentDir : String) (req : ExecRequest)
    (rc : Int) (out err : String)
    (h : os req.command (resolved_cwd currentDir req) req.timeout_seconds =
      .completed rc out err) :
    exec_command os currentDir req = .ok ⟨rc, out, err⟩ := by
  rw [exec_command, h]

/-- Witness for C6 at a negative exit status. -/
theorem exec_exit_code_witness :
    exec_command (fun _ _ _ => RunResult.completed (-9) "" "killed") "/w"
      ⟨"kill -9 $$", none, 120⟩ = .ok ⟨-9, "", "killed"⟩ :=
  exec_exit_code (fun _ _ _ => RunResult.completed (-9) "" "killed") "/w"
    ⟨"kill -9 $$", none, 120⟩ (-9) "" "killed" rfl

/-- Counterexample to C8 as stated: a supplied relative `cwd` is handed to the
spawner verbatim — it is NOT resolved to an absolute path (the spawner here
echoes the cwd it received into stdout). -/
theorem exec_cwd_cex :
    resolved_cwd "/workspaces/repo" ⟨"ls", some "subdir", 120⟩ = "subdir" ∧
    is_absolute_path "subdir" = false ∧
    exec_command (fun _ c _ => RunResult.completed 0 c "") "/workspaces/repo"
      ⟨"ls", some "subdir", 120⟩ = .ok ⟨0, "subdir", ""⟩ :=
  ⟨rfl, rfl, rfl⟩

/-- Claim C8 (amended): a supplied non-empty `cwd` is passed to the spawn
unchanged (not resolved); when `cwd` is absent — or empty, which Python's
`or` treats the same — the executor uses the process's current directory,
already resolved to an absolute path, at call time. -/
theorem exec_cwd_resolution (currentDir : String) (req : ExecRequest) :
    (∀ c, req.cwd = some c → c ≠ "" → resolved_cwd currentDir req = c) ∧
    (req.cwd = none ∨ req.cwd = some "" → resolved_cwd currentDir req = currentDir) := by
  constructor
  · intro c hc hne
    rw [resolved_cwd, hc]
    simp [hne]
  · rintro (hc | hc) <;> rw [resolved_cwd, hc]
    simp

/-- Witness for C8 (amended): both branches at concrete requests. -/
theorem exec_cwd_resolution_witness :
    resolved_cwd "/workspaces/repo" ⟨"ls", some "sub", 120⟩ = "sub" ∧
    resolved_cwd "/workspaces/repo" ⟨"ls", none, 120⟩ = "/workspaces/repo" :=
  ⟨(exec_cwd_resolution "/workspaces/repo" ⟨"ls", some "sub", 120⟩).1 "sub" rfl (by decide),
   (exec_cwd_resolution "/workspaces/repo" ⟨"ls", none, 120⟩).2 (Or.inl rfl)⟩

/-! ### Claim theorems: invalid patterns and the cap -/

/-- Counterexample to C3 as stated: (1) an invalid content pattern with a
missing root yields `NotFound`, not `InvalidPatternFailure`; (2) an invalid
`pathFilter` over a single-file root causes no failure at all — the search
succeeds and returns the file's matches. -/
theorem search_invalid_pattern_cex :
    (search_files toyEngine none ⟨"(", ".", none, 100⟩ = (.error .notFound, []) ∧
      (search_files toyEngine none ⟨"(", ".", none, 100⟩).1 ≠ .error .invalidPattern) ∧
    (search_files toyEngine (some (.file ⟨"a.txt", some ["foo\n"]⟩))
        ⟨"foo", ".", some "(", 100⟩ =
      (.ok ⟨"foo", [⟨"a.txt", 1, "foo"⟩], 1⟩, ["a.txt"]) ∧
      (search_files toyEngine (some (.file ⟨"a.txt", some ["foo\n"]⟩))
        ⟨"foo", ".", some "(", 100⟩).1 ≠ .error .invalidPattern) :=
  ⟨⟨rfl, by decide⟩, ⟨rfl, by decide⟩⟩

/-- Claim C3 (amended): over an existing root, an invalid content pattern
fails with `InvalidPatternFailure`; an invalid `pathFilter` does so when the
root is a directory (over a single-file root it is never compiled). In both
cases the I/O trace is empty: the failure precedes any candidate-file open
(only the root existence check has run). -/
theorem search_invalid_pattern (eng : RegexEngine) (root : Root) (req : SearchRequest)
    (ent : FsEntry) (hroot : root = some ent) :
    (eng.compile req.pattern = none →
      search_files eng root req = (.error .invalidPattern, [])) ∧
    (∀ fs fp, ent = .dir fs → req.file_pattern = some fp → eng.compile fp = none →
      search_files eng root req = (.error .invalidPattern, [])) := by
  subst hroot
  constructor
  · intro hc
    simp [search_files, hc]
  · intro fs fp hent hfp hcfp
    subst hent
    cases hc : eng.compile req.pattern with
    | none => simp [search_files, hc]
    | some pat =>
      have hft : files_to_search eng (.dir fs) req = .error .invalidPattern := by
        simp [files_to_search, hfp, hcfp]
      simp [search_files, hc, hft]

/-- Witness for C3 (amended): both branches at concrete requests. -/
theorem search_invalid_pattern_witness :
    search_files toyEngine (some (.file ⟨"a.txt", some ["foo\n"]⟩))
      ⟨"(", ".", none, 100⟩ = (.error .invalidPattern, []) ∧
    search_files toyEngine (some (.dir [⟨"a.txt", some ["foo\n"]⟩]))
      ⟨"foo", ".", some "(", 100⟩ = (.error .invalidPattern, []) :=
  ⟨(search_invalid_pattern toyEngine _ ⟨"(", ".", none, 100⟩ _ rfl).1 rfl,
   (search_invalid_pattern toyEngine _ ⟨"foo", ".", some "(", 100⟩ _ rfl).2
     [⟨"a.txt", some ["foo\n"]⟩] "(" rfl rfl rfl⟩

/-- Counterexample to C9 as stated: with `maxResults = 0` over an existing
root but an invalid content pattern, the search does not succeed at all — the
pattern is compiled before the cap is consulted. -/
theorem search_zero_cap_cex :
    search_files toyEngine (some (.file ⟨"a.txt", some ["foo\n"]⟩))
      ⟨"(", ".", none, 0⟩ = (.error .invalidPattern, []) ∧
    (search_files toyEngine (some (.file ⟨"a.txt", some ["foo\n"]⟩))
      ⟨"(", ".", none, 0⟩).1 ≠ .ok ⟨"(", [], 0⟩ :=
  ⟨rfl, by decide⟩

/-- Claim C9 (amended): when the root exists, the content pattern compiles and
the candidate set resolves, a request with `maxResults ≤ 0` succeeds with an
empty match list, `totalMatches = 0`, and an empty I/O trace — the cap check
precedes every file open, so no candidate file is opened. -/
theorem search_nonpositive_cap (eng : RegexEngine) (root : Root) (req : SearchRequest)
    (ent : FsEntry) (pat : String → Bool) (cands : List FileEnt)
    (hroot : root = some ent) (hc : eng.compile req.pattern = some pat)
    (hf : files_to_search eng ent req = .ok cands) (hcap : req.max_results ≤ 0) :
    search_files eng root req = (.ok ⟨req.pattern, [], 0⟩, []) := by
  subst hroot
  have hfl : file_loop pat req.max_results cands [] [] = ([], []) := by
    cases cands with
    | nil => rfl
    | cons f rest => simp [file_loop, hcap]
  simp [search_files, hc, hf, hfl]

/-- Witness for C9 (amended): cap 0 over a file with a matching line. -/
theorem search_nonpositive_cap_witness :
    search_files toyEngine (some (.file ⟨"a.txt", some ["foo\n"]⟩))
      ⟨"foo", ".", none, 0⟩ = (.ok ⟨"foo", [], 0⟩, []) :=
  search_nonpositive_cap toyEngine _ _ _ _ _ rfl rfl rfl (by decide)

/-- Claim C10: over an existing single-file root the candidate set is exactly
that file; `file_pattern` is never compiled or applied — any two values of it
(including uncompilable ones) give identical outcomes — and the file's
matches are returned, capped as usual. -/
theorem search_file_root_ignores_filter (eng : RegexEngine) (req : SearchRequest)
    (f : FileEnt) :
    files_to_search eng (.file f) req = .ok [f] ∧
    (∀ fp₁ fp₂ : Option String,
      search_files eng (some (.file f)) { req with file_pattern := fp₁ } =
      search_files eng (some (.file f)) { req with file_pattern := fp₂ }) ∧
    (∀ pat, eng.compile req.pattern = some pat →
      (search_files eng (some (.file f)) req).1 =
        .ok ⟨req.pattern, (file_matches pat f).take req.max_results.toNat,
          ((file_matches pat f).take req.max_results.toNat).length⟩) := by
  refine ⟨rfl, ?_, ?_⟩
  · intro fp₁ fp₂
    rfl
  · intro pat hc
    have hx : (file_loop pat req.max_results [f] [] []).1 =
        (file_matches pat f).take req.max_results.toNat := by
      rw [file_loop_fst]
      simp [all_matches]
    simp [search_files, hc, files_to_search, hx]

/-- Witness for C10: a single-file root with an invalid `pathFilter` still
returns the file's matches. -/
theorem search_file_root_ignores_filter_witness :
    (search_files toyEngine (some (.file ⟨"a.txt", some ["foo\n"]⟩))
      ⟨"foo", ".", some "(", 100⟩).1 = .ok ⟨"foo", [⟨"a.txt", 1, "foo"⟩], 1⟩ := by
  have h := (search_file_root_ignores_filter toyEngine ⟨"foo", ".", some "(", 100⟩
    ⟨"a.txt", some ["foo\n"]⟩).2.2 (fun line => subOccurs "foo".data line.data) rfl
  rw [h]
  rfl

end CodespaceAgent

namespace CodespaceAgent

/-! ### Claim theorems: cap, isolation, path filter, match fields -/

/-- Counterexample to C1 as stated: with `maxResults = -1` over a corpus with
a matching line, the search succeeds with an empty match list, and
`len(matches) ≤ maxResults` is `0 ≤ -1`, which is false. -/
theorem search_cap_cex :
    search_files toyEngine (some (.file ⟨"a.txt", some ["foo\n"]⟩))
      ⟨"foo", ".", none, -1⟩ = (.ok ⟨"foo", [], 0⟩, []) ∧
    ¬ ((0 : Int) ≤ (-1 : Int)) :=
  ⟨rfl, by decide⟩

/-- Claim C1 (amended): every successful search returns exactly the first
`max(0, maxResults)` matches of the candidate corpus in traversal order
(files in candidate order, ascending line numbers within a file), so in
particular `len(matches) ≤ max(0, maxResults)` — the original bound
`len(matches) ≤ maxResults` fails only for negative `maxResults`. The opened
files form a prefix of the candidate list, and as soon as the first `j`
candidates alone already contain `maxResults` matches, at most `j` files are
ever opened: the cap short-circuits the line loop and the file loop, with no
file I/O after it is reached. -/
theorem search_cap_prefix_shortcircuit (eng : RegexEngine) (root : Root)
    (req : SearchRequest) (resp : SearchResponse) (opened : List String)
    (h : search_files eng root req = (.ok resp, opened)) :
    ∃ ent pat cands, root = some ent ∧ eng.compile req.pattern = some pat ∧
      files_to_search eng ent req = .ok cands ∧
      resp.matches_ = (all_matches pat cands).take req.max_results.toNat ∧
      (resp.matches_.length : Int) ≤ max 0 req.max_results ∧
      opened <+: cands.map FileEnt.path ∧
      (∀ j : Nat, req.max_results ≤ ((all_matches pat (cands.take j)).length : Int) →
        opened.length ≤ j) := by
  obtain ⟨ent, pat, cands, hroot, hc, hf, hpat, hm, ht, hop⟩ :=
    search_files_ok_inv eng root req resp opened h
  refine ⟨ent, pat, cands, hroot, hc, hf, ?_, ?_, ?_, ?_⟩
  · rw [hm, file_loop_fst]
    simp
  · rw [hm, file_loop_fst]
    simp only [List.nil_append, List.length_take, List.length_nil, Nat.sub_zero]
    omega
  · obtain ⟨k, hk⟩ := file_loop_snd_prefix pat req.max_results cands [] []
    rw [hop, hk, List.nil_append]
    exact ⟨(cands.map FileEnt.path).drop k, List.take_append_drop k _⟩
  · intro j hj
    have hb := file_loop_snd_bound pat req.max_results cands [] [] j (by simpa using hj)
    rw [hop]
    simpa using hb

/-- Witness for C1: two matching files, cap 2 — the second file is never
opened. -/
theorem search_cap_prefix_shortcircuit_witness :
    ∃ ent pat cands,
      (some (FsEntry.dir [⟨"a.txt", some ["foo\n", "bar\n", "foo two\n"]⟩,
        ⟨"c.txt", some ["xfoox\n"]⟩]) : Root) = some ent ∧
      toyEngine.compile "foo" = some pat ∧
      files_to_search toyEngine ent ⟨"foo", ".", none, 2⟩ = .ok cands ∧
      [(⟨"a.txt", 1, "foo"⟩ : SearchMatch), ⟨"a.txt", 3, "foo two"⟩] =
        (all_matches pat cands).take (Int.toNat 2) ∧
      (([(⟨"a.txt", 1, "foo"⟩ : SearchMatch), ⟨"a.txt", 3, "foo two"⟩].length : Int)) ≤
        max 0 2 ∧
      ["a.txt"] <+: cands.map FileEnt.path ∧
      (∀ j : Nat, (2 : Int) ≤ ((all_matches pat (cands.take j)).length : Int) →
        (["a.txt"] : List String).length ≤ j) :=
  search_cap_prefix_shortcircuit toyEngine
    (some (.dir [⟨"a.txt", some ["foo\n", "bar\n", "foo two\n"]⟩,
      ⟨"c.txt", some ["xfoox\n"]⟩]))
    ⟨"foo", ".", none, 2⟩
    ⟨"foo", [⟨"a.txt", 1, "foo"⟩, ⟨"a.txt", 3, "foo two"⟩], 2⟩ ["a.txt"] (by rfl)

/-- Claim C4: a search over a directory containing an unreadable candidate
does not abort: it succeeds, the unreadable file contributes no matches, and
the returned matches are the capped prefix of exactly the readable
candidates' matches. -/
theorem search_skips_unreadable (eng : RegexEngine) (root : Root)
    (req : SearchRequest) (fs : List FileEnt) (pat : String → Bool) (f : FileEnt)
    (hroot : root = some (.dir fs)) (hc : eng.compile req.pattern = some pat)
    (hfp : req.file_pattern = none) (_hf : f ∈ fs) (hunread : f.lines = none) :
    ∃ resp opened, search_files eng root req = (.ok resp, opened) ∧
      file_matches pat f = [] ∧
      resp.matches_ = (all_matches pat (fs.filter (fun g => g.lines.isSome))).take
        req.max_results.toNat := by
  subst hroot
  have hft : files_to_search eng (.dir fs) req = .ok fs := by
    simp [files_to_search, hfp]
  refine ⟨⟨req.pattern, (file_loop pat req.max_results fs [] []).1,
    (file_loop pat req.max_results fs [] []).1.length⟩,
    (file_loop pat req.max_results fs [] []).2, ?_, ?_, ?_⟩
  · simp [search_files, hc, hft]
  · simp [file_matches, hunread]
  · rw [file_loop_fst pat req.max_results fs [] [],
      all_matches_filter_readable pat fs]
    simp

/-- Witness for C4: the unreadable `b.bin` sits between two readable matching
files; all their matches are still returned. -/
theorem search_skips_unreadable_witness :
    ∃ resp opened,
      search_files toyEngine (some (.dir [⟨"a.txt", some ["foo\n", "bar\n", "foo two\n"]⟩,
        ⟨"b.bin", none⟩, ⟨"c.txt", some ["xfoox\n"]⟩])) ⟨"foo", ".", none, 100⟩ =
        (.ok resp, opened) ∧
      file_matches (fun line => subOccurs "foo".data line.data) ⟨"b.bin", none⟩ = [] ∧
      resp.matches_ = (all_matches (fun line => subOccurs "foo".data line.data)
        ([⟨"a.txt", some ["foo\n", "bar\n", "foo two\n"]⟩, ⟨"b.bin", none⟩,
          ⟨"c.txt", some ["xfoox\n"]⟩].filter (fun g => g.lines.isSome))).take
        (Int.toNat 100) :=
  search_skips_unreadable toyEngine _ ⟨"foo", ".", none, 100⟩
    [⟨"a.txt", some ["foo\n", "bar\n", "foo two\n"]⟩, ⟨"b.bin", none⟩,
      ⟨"c.txt", some ["xfoox\n"]⟩]
    (fun line => subOccurs "foo".data line.data) ⟨"b.bin", none⟩
    rfl rfl rfl (by decide) rfl

/-- Counterexample to C5 as stated: over a single-file root the `pathFilter`
is ignored — a filter matching nowhere in the file's path still lets the
file's matches through. -/
theorem search_path_filter_cex :
    subOccurs "zzz".data "a.txt".data = false ∧
    search_files toyEngine (some (.file ⟨"a.txt", some ["foo\n"]⟩))
      ⟨"foo", ".", some "zzz", 100⟩ =
      (.ok ⟨"foo", [⟨"a.txt", 1, "foo"⟩], 1⟩, ["a.txt"]) :=
  ⟨by decide, rfl⟩

/-- Claim C5 (amended): over a directory root, a supplied `pathFilter` is
compiled and every returned match's filePath satisfies it (it matched
somewhere in the candidate's full path string); with `pathFilter` omitted the
candidate set is every file under the root. (Over a single-file root the
filter is not applied — see C10.) -/
theorem search_path_filter (eng : RegexEngine) (root : Root) (req : SearchRequest)
    (fs : List FileEnt) (resp : SearchResponse) (opened : List String)
    (hroot : root = some (.dir fs))
    (h : search_files eng root req = (.ok resp, opened)) :
    (∀ fp g, req.file_pattern = some fp → eng.compile fp = some g →
      ∀ m ∈ resp.matches_, g m.file_path = true) ∧
    (req.file_pattern = none → files_to_search eng (.dir fs) req = .ok fs) := by
  refine ⟨?_, fun hfp => by simp [files_to_search, hfp]⟩
  intro fp g hfp hg m hm
  obtain ⟨ent, pat, cands, hroot', hc, hf, hpat, hmm, ht, hop⟩ :=
    search_files_ok_inv eng root req resp opened h
  have hent : (some (FsEntry.dir fs) : Root) = some ent := hroot.symm.trans hroot'
  injection hent with hent
  subst hent
  simp only [files_to_search, hfp, hg, Except.ok.injEq] at hf
  rw [hmm, file_loop_fst pat req.max_results cands [] [], List.nil_append] at hm
  have hm' : m ∈ all_matches pat cands := List.take_subset _ _ hm
  obtain ⟨cf, hcf, hmf⟩ := all_matches_mem pat cands m hm'
  obtain ⟨ls, hls, hml⟩ := file_matches_mem pat cf m hmf
  have hfp' := (line_matches_mem pat cf.path ls 1 m hml).1
  rw [← hf] at hcf
  have : g cf.path = true := (List.mem_filter.mp hcf).2
  rw [hfp']
  exact this

/-- Witness for C5 (amended): filter `"b"` keeps only `b.txt`, and the
returned match's path satisfies it. -/
theorem search_path_filter_witness :
    (∀ fp g, (⟨"foo", ".", some "b", 10⟩ : SearchRequest).file_pattern = some fp →
      toyEngine.compile fp = some g →
      ∀ m ∈ [(⟨"b.txt", 1, "foo"⟩ : SearchMatch)], g m.file_path = true) ∧
    ((⟨"foo", ".", some "b", 10⟩ : SearchRequest).file_pattern = none →
      files_to_search toyEngine
        (.dir [⟨"a.txt", some ["foo\n"]⟩, ⟨"b.txt", some ["foo\n"]⟩])
        ⟨"foo", ".", some "b", 10⟩ =
        .ok [⟨"a.txt", some ["foo\n"]⟩, ⟨"b.txt", some ["foo\n"]⟩]) :=
  search_path_filter toyEngine
    (some (.dir [⟨"a.txt", some ["foo\n"]⟩, ⟨"b.txt", some ["foo\n"]⟩]))
    ⟨"foo", ".", some "b", 10⟩
    [⟨"a.txt", some ["foo\n"]⟩, ⟨"b.txt", some ["foo\n"]⟩]
    ⟨"foo", [⟨"b.txt", 1, "foo"⟩], 1⟩ ["b.txt"] rfl (by rfl)

/-- Counterexample to C7 as stated: `line.rstrip()` strips ALL trailing
whitespace, not just the trailing newline — the line `"foo \n"` comes back as
`"foo"`, not `"foo "`. -/
theorem search_match_fields_cex :
    search_files toyEngine (some (.file ⟨"a.txt", some ["foo \n"]⟩))
      ⟨"foo", ".", none, 100⟩ =
      (.ok ⟨"foo", [⟨"a.txt", 1, "foo"⟩], 1⟩, ["a.txt"]) ∧
    stripTrailingNewline "foo \n" = "foo " ∧
    ("foo" : String) ≠ "foo " :=
  ⟨rfl, rfl, by decide⟩

/-- Claim C7 (amended): every returned match carries a positive 1-based line
number addressing a real line of a readable candidate file, its filePath is
that file's path, and its lineContent is that very line passed through
Python's `rstrip()` — i.e. with ALL trailing whitespace removed (the original
"exactly the trailing newline stripped" is what fails); the content pattern
matched that line. -/
theorem search_match_fields (eng : RegexEngine) (root : Root) (req : SearchRequest)
    (resp : SearchResponse) (opened : List String)
    (h : search_files eng root req = (.ok resp, opened)) :
    ∀ m ∈ resp.matches_, 1 ≤ m.line_number ∧
      ∃ ent pat cands f ls, root = some ent ∧ eng.compile req.pattern = some pat ∧
        files_to_search eng ent req = .ok cands ∧ f ∈ cands ∧ f.lines = some ls ∧
        m.file_path = f.path ∧ m.line_number - 1 < ls.length ∧
        m.line_content = pyRstrip (ls.getD (m.line_number - 1) "") ∧
        pat (ls.getD (m.line_number - 1) "") = true := by
  intro m hm
  obtain ⟨ent, pat, cands, hroot, hc, hf, hpat, hmm, ht, hop⟩ :=
    search_files_ok_inv eng root req resp opened h
  rw [hmm, file_loop_fst pat req.max_results cands [] [], List.nil_append] at hm
  have hm' : m ∈ all_matches pat cands := List.take_subset _ _ hm
  obtain ⟨cf, hcf, hmf⟩ := all_matches_mem pat cands m hm'
  obtain ⟨ls, hls, hml⟩ := file_matches_mem pat cf m hmf
  obtain ⟨h1, h2, h3, h4, h5⟩ := line_matches_mem pat cf.path ls 1 m hml
  exact ⟨h2, ent, pat, cands, cf, ls, hroot, hc, hf, hcf, hls, h1, h3, h4, h5⟩

/-- Witness for C7: the match at line 1 of `a.txt` (content `"foo \n"`,
returned as `"foo"`). -/
theorem search_match_fields_witness :
    1 ≤ (1 : Nat) ∧
    ∃ ent pat cands f ls,
      (some (FsEntry.file ⟨"a.txt", some ["foo \n"]⟩) : Root) = some ent ∧
      toyEngine.compile "foo" = some pat ∧
      files_to_search toyEngine ent ⟨"foo", ".", none, 100⟩ = .ok cands ∧
      f ∈ cands ∧ f.lines = some ls ∧
      ("a.txt" : String) = f.path ∧ 1 - 1 < ls.length ∧
      ("foo" : String) = pyRstrip (ls.getD (1 - 1) "") ∧
      pat (ls.getD (1 - 1) "") = true :=
  search_match_fields toyEngine (some (.file ⟨"a.txt", some ["foo \n"]⟩))
    ⟨"foo", ".", none, 100⟩ ⟨"foo", [⟨"a.txt", 1, "foo"⟩], 1⟩ ["a.txt"] (by rfl)
    ⟨"a.txt", 1, "foo"⟩ (by decide)

end CodespaceAgent
